import Mathlib

/-!
Shallow embedding of the motion-estimation and control core of
`custom_components/logo_shutters/cover.py` (the `LogoCover` entity), together
with the stop-sequence parser and executor, and theorems checking the
natural-language specification against it.

Modelling conventions:
* Python floats are modelled as `ℚ`; Python ints as `ℤ`.
* Fallible code (uncaught `ZeroDivisionError`, `TypeError`, `AttributeError`,
  failed `assert`) is modelled with `Option`, `none` standing for an
  exception propagating out of the modelled function.
* External effects (`hass.services.async_call`, `asyncio.sleep` inside the
  stop-sequence executor) are collected in an action log; state publication
  (`async_write_ha_state`) is not logged since no claim concerns it.
* The YAML text front end (`yaml.safe_load`) is an external library; the
  parser is embedded from the loaded YAML value on, over a `Yaml` value type.
-/

namespace LogoShutters

/-- A loaded YAML value, as produced by the external YAML front end
(mapping keys are modelled as strings, the only key shape the code uses). -/
inductive Yaml where
  | null : Yaml
  | bool (b : Bool) : Yaml
  | int (n : ℤ) : Yaml
  | float (q : ℚ) : Yaml
  | str (s : String) : Yaml
  | list (xs : List Yaml) : Yaml
  | map (fields : List (String × Yaml)) : Yaml

/-- Python truthiness (`not value` tests) on loaded YAML values. -/
def yamlTruthy : Yaml → Bool
  | .null => false
  | .bool b => b
  | .int n => n != 0
  | .float q => q != 0
  | .str s => s != ""
  | .list xs => !xs.isEmpty
  | .map fields => !fields.isEmpty

/-- Python `mapping.get(key)` on a loaded YAML mapping (keys unique, first match). -/
def yamlGet (fields : List (String × Yaml)) (key : String) : Option Yaml :=
  (fields.find? (fun kv => kv.1 == key)).map (fun kv => kv.2)

/-- Model of the Python builtin `float()` coercion applied to a loaded YAML
scalar; `none` models a raised `TypeError`/`ValueError`. Numeric strings
(which the builtin would also accept) are modelled as uncoercible; no claim
in this development involves string-typed delay values. -/
def pyFloat : Yaml → Option ℚ
  | .int n => some (n : ℚ)
  | .float q => some q
  | .bool b => some (if b then 1 else 0)
  | _ => none

/-- Python 3 `round()` on a float: round half to even (`int(round(v))`). -/
def pyRound (q : ℚ) : ℤ :=
  let f := ⌊q⌋
  if q - f < 1/2 then f
  else if q - f > 1/2 then f + 1
  else if f % 2 = 0 then f else f + 1

/-- Model of `_clamp_position` (cover.py:50-52): clamp a float to a 0-100 int. -/
def clampPosition (value : ℚ) : ℤ :=
  max 0 (min 100 (pyRound value))

/-- Model of `StopStep` (cover.py:55-63): single step in a stop sequence.
`entityId` is stored as the raw loaded value (`null` when absent), as the
code stores whatever `step.get("entity_id")` returned. -/
structure StopStep where
  domain : String
  service : String
  entityId : Yaml
  serviceData : List (String × Yaml)
  delay : ℚ

/-- Python `service.split(".", 1)` for a string known to contain a dot. -/
def splitFirstDot (s : String) : String × String :=
  match s.toList.span (fun c => c != '.') with
  | (pre, _ :: post) => (String.mk pre, String.mk post)
  | (pre, []) => (String.mk pre, "")

/-- Python `"." == element` as used by list membership: only the string
"." matches. -/
def isDotString : Yaml → Bool
  | .str s => s == "."
  | _ => false

/-- Outcome of the per-element body of the parsing loop. -/
inductive StepOutcome where
  | skip : StepOutcome
  | keep (st : StopStep) : StepOutcome
  | crash : StepOutcome

/-- Body of the loop of `_parse_stop_sequence` (cover.py:81-108) for one
element. `.skip` models `continue`; `.crash` models an uncaught exception:
`"." not in service` raises `TypeError` when `service` is a truthy number,
boolean or other non-container, and `service.split` raises `AttributeError`
when `service` is a container that contains "." (a list with element "."
or a mapping with key "."). -/
def processStep (step : Yaml) : StepOutcome :=
  match step with
  | .map fields =>
      let service := (yamlGet fields "service").getD .null
      if !yamlTruthy service then .skip
      else
        match service with
        | .str sv =>
            if !sv.contains '.' then .skip
            else
              let dn := splitFirstDot sv
              let entityId := (yamlGet fields "entity_id").getD .null
              let delayVal := (yamlGet fields "delay").getD (.int 0)
              let delay := (pyFloat delayVal).getD 0
              let sdRaw := (yamlGet fields "service_data").getD .null
              let sdOr := if yamlTruthy sdRaw then sdRaw else Yaml.map []
              let serviceData :=
                match sdOr with
                | .map kvs => kvs
                | _ => []
              .keep ⟨dn.1, dn.2, entityId, serviceData, delay⟩
        | .list xs => if xs.any isDotString then .crash else .skip
        | .map kvs => if kvs.any (fun kv => kv.1 == ".") then .crash else .skip
        | _ => .crash
  | _ => .skip

/-- The parsing loop of `_parse_stop_sequence` over the loaded list;
`none` models an exception propagating out of the function. -/
def parseSteps : List Yaml → Option (List StopStep)
  | [] => some []
  | step :: rest =>
      match processStep step with
      | .skip => parseSteps rest
      | .keep st => (parseSteps rest).map (fun l => st :: l)
      | .crash => none

/-- Model of `_parse_stop_sequence` (cover.py:66-109) from the loaded YAML value on.
The text-level cases (blank input, unparsable text) both return `[]` before
this point and involve only the external YAML library. A loaded value that
is not a list yields `[]` with a warning. -/
def parseStopSequence (loaded : Yaml) : Option (List StopStep) :=
  match loaded with
  | .list items => parseSteps items
  | _ => some []

/-- The configuration attributes the cover entity stores in `__init__`
(cover.py:143-162): switches, optional motion sensors, durations, the
clamped shade position, and the stop sequences after the `or common`
fallback substitution. -/
structure Config where
  openSwitch : String
  closeSwitch : String
  movingUpSensor : Option String
  movingDownSensor : Option String
  openTime : ℚ
  closeTime : ℚ
  shadePosition : ℤ
  stopSequenceUp : List StopStep
  stopSequenceDown : List StopStep

/-- The mutable state of a `LogoCover` entity (cover.py:164-174).
`movementTaskActive` models `_movement_task is not None`. -/
structure CoverState where
  position : ℤ
  isOpening : Bool
  isClosing : Bool
  sensorUpActive : Bool
  sensorDownActive : Bool
  movementTaskActive : Bool
  movementStart : Option ℚ
  movementStartPosition : ℚ
  movementTarget : Option ℚ
  movementExpectedDuration : Option ℚ
  lastDirectionOpening : Option Bool
deriving DecidableEq

/-- An external effect issued by the entity: a service call
(`hass.services.async_call`) or a stop-sequence inter-step delay. -/
inductive Action where
  | serviceCall (domain service : String) (data : List (String × Yaml)) : Action
  | sleepDelay (seconds : ℚ) : Action

/-- Model of `_set_motion` (cover.py:389-393). -/
def setMotion (opening closing : Bool) (s : CoverState) : CoverState :=
  { s with isOpening := opening, isClosing := closing }

/-- Model of `_interpolated_position` (cover.py:375-387): position from elapsed
movement time, `now` being the monotonic-clock reading. `none` models the
uncaught `ZeroDivisionError` raised when the expected duration is 0. -/
def interpolatedPosition (s : CoverState) (now : ℚ) : Option ℚ :=
  match s.movementStart, s.movementTarget, s.movementExpectedDuration with
  | some ms, some mt, some md =>
      if md = 0 then none
      else
        let elapsed := now - ms
        let progress := min 1 (elapsed / md)
        let delta := mt - s.movementStartPosition
        some (s.movementStartPosition + delta * progress)
  | _, _, _ => some ((s.position : ℚ))

/-- Model of `_cancel_movement` (cover.py:329-341): cancel the task, optionally
commit the clamped interpolated position, clear the movement fields and
both motion flags. -/
def cancelMovement (updatePosition : Bool) (now : ℚ) (s : CoverState) : Option CoverState :=
  let s1 := { s with movementTaskActive := false }
  let s2? :=
    if updatePosition && s1.movementStart.isSome then
      (interpolatedPosition s1 now).map (fun p => { s1 with position := clampPosition p })
    else some s1
  s2?.map (fun s2 =>
    setMotion false false
      { s2 with movementStart := none, movementTarget := none,
                movementExpectedDuration := none })

/-- Model of `_start_movement` (cover.py:285-298): record the new movement (start
position is the committed integer position), set the flags, remember the
direction, and (re)start the tracking task. -/
def startMovement (target : ℤ) (duration : ℚ) (opening : Bool) (now : ℚ)
    (s : CoverState) : CoverState :=
  { s with
    movementStart := some now
    movementStartPosition := ((s.position : ℚ))
    movementTarget := some ((target : ℚ))
    movementExpectedDuration := some duration
    lastDirectionOpening := some opening
    isOpening := opening
    isClosing := !opening
    movementTaskActive := true }

/-- Model of `_fire_direction_switch` (cover.py:274-283). -/
def fireDirectionSwitch (cfg : Config) (opening : Bool) : Action :=
  .serviceCall "switch" "turn_on"
    [("entity_id", .str (if opening then cfg.openSwitch else cfg.closeSwitch))]

/-- The service data of one stop step call (cover.py:362-364): the step's
`service_data`, with the step's entity id merged in when the step has a
(truthy) one and the data does not already contain the key. -/
def stepServiceData (st : StopStep) : List (String × Yaml) :=
  if yamlTruthy st.entityId && !(st.serviceData.any (fun kv => kv.1 == "entity_id")) then
    st.serviceData ++ [("entity_id", st.entityId)]
  else st.serviceData

/-- The actions of one stop step (cover.py:361-373): the service call,
then a delay when the step's delay is positive. -/
def stepActions (st : StopStep) : List Action :=
  [.serviceCall st.domain st.service (stepServiceData st)] ++
    (if st.delay > 0 then [.sleepDelay st.delay] else [])

/-- Model of `_execute_stop_sequence` (cover.py:343-373): pick the sequence for the
resolved direction (empty when the direction is unknown); an empty
sequence falls back to one call turning off both actuation switches. -/
def executeStopSequence (cfg : Config) (opening : Option Bool) : List Action :=
  let sequence : List StopStep :=
    match opening with
    | some true => cfg.stopSequenceUp
    | some false => cfg.stopSequenceDown
    | none => []
  if sequence.isEmpty then
    [.serviceCall "switch" "turn_off"
      [("entity_id", .list [.str cfg.openSwitch, .str cfg.closeSwitch])]]
  else
    (sequence.map stepActions).flatten

/-- Model of `_active_or_last_direction` (cover.py:395-401). -/
def activeOrLastDirection (s : CoverState) : Option Bool :=
  if s.sensorUpActive || s.isOpening then some true
  else if s.sensorDownActive || s.isClosing then some false
  else s.lastDirectionOpening

/-- Model of `async_stop_cover` (cover.py:262-268): resolve the direction, cancel
with position update, run the stop sequence, clear the flags. -/
def stopCover (cfg : Config) (now : ℚ) (s : CoverState) :
    Option (CoverState × List Action) :=
  let direction := activeOrLastDirection s
  (cancelMovement true now s).map (fun s1 =>
    (setMotion false false s1, executeStopSequence cfg direction))

/-- Model of `async_set_cover_position` (cover.py:243-260): no position argument is
a no-op; a clamped target equal to the committed position delegates to
`async_stop_cover`; otherwise cancel with update, fire the direction
switch and start the movement. -/
def setCoverPosition (cfg : Config) (now : ℚ) (target? : Option ℚ)
    (s : CoverState) : Option (CoverState × List Action) :=
  match target? with
  | none => some (s, [])
  | some raw =>
      let target := clampPosition raw
      if target = s.position then stopCover cfg now s
      else
        (cancelMovement true now s).map (fun s1 =>
          let directionOpen := decide (s1.position < target)
          let duration := if directionOpen then cfg.openTime else cfg.closeTime
          (startMovement target duration directionOpen now s1,
           [fireDirectionSwitch cfg directionOpen]))

/-- One iteration of the while-loop body of `_run_movement_task`
(cover.py:306-310): interpolate and commit the clamped position. -/
def movementTick (now : ℚ) (s : CoverState) : Option CoverState :=
  (interpolatedPosition s now).map (fun p => { s with position := clampPosition p })

/-- Natural completion of `_run_movement_task` (cover.py:321-327): commit
the exact clamped target, set the flags from the sensors, clear the task.
`none` models the entry assert firing when no target is recorded. -/
def movementComplete (s : CoverState) : Option CoverState :=
  match s.movementTarget with
  | some mt =>
      let s1 := { s with position := clampPosition mt }
      let s2 :=
        if s1.sensorUpActive || s1.sensorDownActive then
          setMotion s1.sensorUpActive s1.sensorDownActive s1
        else setMotion false false s1
      some { s2 with movementTaskActive := false }
  | none => none

/-- Model of `_handle_motion_sensor` (cover.py:403-430): ignore unknown entities;
record the sensor state; on activation cancel-with-update then start a
movement toward the implied endpoint; on deactivation cancel-with-update
only when both sensors are now inactive. -/
def handleMotionSensor (cfg : Config) (now : ℚ) (entityId : String)
    (newState : Option String) (s : CoverState) : Option CoverState :=
  if !(some entityId == cfg.movingUpSensor) && !(some entityId == cfg.movingDownSensor) then
    some s
  else
    let isOn := newState == some "on"
    let opening := some entityId == cfg.movingUpSensor
    let s1 :=
      if opening then { s with sensorUpActive := isOn }
      else { s with sensorDownActive := isOn }
    if isOn then
      (cancelMovement true now s1).map (fun s2 =>
        let target : ℤ := if opening then 100 else 0
        let duration := if opening then cfg.openTime else cfg.closeTime
        startMovement target duration opening now s2)
    else
      if !s1.sensorUpActive && !s1.sensorDownActive then cancelMovement true now s1
      else some s1

/-- Position restore in `async_added_to_hass` (cover.py:214-216): a
restored position is clamped; no restored state leaves it untouched. -/
def restoreState (pos? : Option ℚ) (s : CoverState) : CoverState :=
  match pos? with
  | some p => { s with position := clampPosition p }
  | none => s

/-- Every state-changing operation of the entity, for invariant claims. -/
inductive Cmd where
  | openCover : Cmd
  | closeCover : Cmd
  | setPosition (target? : Option ℚ) : Cmd
  | setShade : Cmd
  | stopCmd : Cmd
  | tick (now : ℚ) : Cmd
  | complete : Cmd
  | sensorEvent (entityId : String) (newState : Option String) : Cmd
  | restore (pos? : Option ℚ) : Cmd

/-- Dispatch of one operation (the public commands delegate exactly as the
code does: open = set-position 100, close = 0, shade = configured shade). -/
def runCmd (cfg : Config) (now : ℚ) (c : Cmd) (s : CoverState) :
    Option (CoverState × List Action) :=
  match c with
  | .openCover => setCoverPosition cfg now (some 100) s
  | .closeCover => setCoverPosition cfg now (some 0) s
  | .setPosition target? => setCoverPosition cfg now target? s
  | .setShade => setCoverPosition cfg now (some ((cfg.shadePosition : ℚ))) s
  | .stopCmd => stopCover cfg now s
  | .tick tnow => (movementTick tnow s).map (fun s1 => (s1, []))
  | .complete => (movementComplete s).map (fun s1 => (s1, []))
  | .sensorEvent e ns => (handleMotionSensor cfg now e ns s).map (fun s1 => (s1, []))
  | .restore pos? => some (restoreState pos? s, [])

/-- Spec-style restatement of the direction resolution, following the
amended claim's wording: the up sensor or the opening flag first, then
the down sensor or the closing flag, then the remembered direction. -/
def resolvedStopDirection (s : CoverState) : Option Bool :=
  match s.sensorUpActive || s.isOpening, s.sensorDownActive || s.isClosing with
  | true, _ => some true
  | false, true => some false
  | false, false => s.lastDirectionOpening

/-- A concrete configuration for witnesses and counterexamples. -/
def exConfig : Config :=
  { openSwitch := "switch.open"
    closeSwitch := "switch.close"
    movingUpSensor := some "binary_sensor.up"
    movingDownSensor := some "binary_sensor.down"
    openTime := 20
    closeTime := 20
    shadePosition := 40
    stopSequenceUp := []
    stopSequenceDown := [] }

/-- A concrete idle state at position 40. -/
def exIdleState : CoverState :=
  { position := 40
    isOpening := false
    isClosing := false
    sensorUpActive := false
    sensorDownActive := false
    movementTaskActive := false
    movementStart := none
    movementStartPosition := 40
    movementTarget := none
    movementExpectedDuration := none
    lastDirectionOpening := none }

/-- A concrete state with an active movement from 0 toward 100 over 20s
started at monotonic time 0. -/
def exMovingState : CoverState :=
  { position := 0
    isOpening := true
    isClosing := false
    sensorUpActive := false
    sensorDownActive := false
    movementTaskActive := true
    movementStart := some 0
    movementStartPosition := 0
    movementTarget := some 100
    movementExpectedDuration := some 20
    lastDirectionOpening := some true }

/-- The state after one movement tick of `exMovingState` at time 1. -/
def exTickedState : CoverState :=
  { exMovingState with position := 5 }

/-- A concrete state with the down sensor active while the opening flag is
still set (reachable: an upward user command issued while the down sensor
reports motion). -/
def exSensorConflictState : CoverState :=
  { position := 50
    isOpening := true
    isClosing := false
    sensorUpActive := false
    sensorDownActive := true
    movementTaskActive := true
    movementStart := some 0
    movementStartPosition := 50
    movementTarget := some 100
    movementExpectedDuration := some 20
    lastDirectionOpening := some true }

/-- The delay the parser records for a mapping element, as the amended
claim C5 reads: the float coercion of the element's delay field (an
absent field defaults to 0, an uncoercible value becomes 0), with no sign
adjustment. -/
def stepDelayOf (fields : List (String × Yaml)) : ℚ :=
  (pyFloat ((yamlGet fields "delay").getD (.int 0))).getD 0

/-- Spec-style description of a well-formed element (amended claim C9): a
mapping whose service field is a nonempty string containing a dot,
together with the StopStep it yields. -/
def specStep : Yaml → Option StopStep
  | .map fields =>
      match yamlGet fields "service" with
      | some (.str sv) =>
          if sv != "" && sv.contains '.' then
            some
              { domain := (splitFirstDot sv).1
                service := (splitFirstDot sv).2
                entityId := (yamlGet fields "entity_id").getD .null
                serviceData :=
                  match yamlGet fields "service_data" with
                  | some (.map kvs) => kvs
                  | _ => []
                delay := stepDelayOf fields }
          else none
      | _ => none
  | _ => none

/-- Spec-style description of an element on which the parser raises
(amended claim C9): a mapping whose truthy service field is a number or a
boolean (TypeError at the containment test), or a container containing
"." (AttributeError at the split). -/
def specCrashes : Yaml → Bool
  | .map fields =>
      match (yamlGet fields "service").getD .null with
      | .int n => n != 0
      | .float q => q != 0
      | .bool bv => bv
      | .list xs => xs.any isDotString
      | .map kvs => kvs.any (fun kv => kv.1 == ".")
      | _ => false
  | _ => false

/-- A stop-sequence list with a configured negative delay. -/
def exNegDelayItems : List Yaml :=
  [.map [("service", .str "switch.turn_off"), ("delay", .int (-1))]]

/-- The StopStep the parser produces for `exNegDelayItems`. -/
def exNegStep : StopStep :=
  { domain := "switch", service := "turn_off", entityId := .null,
    serviceData := [], delay := -1 }

/-- A stop-sequence list with a non-string service among two valid steps. -/
def exCrashItems : List Yaml :=
  [.map [("service", .str "switch.turn_off")],
   .map [("service", .int 1)],
   .map [("service", .str "light.turn_off")]]

/-- A stop-sequence list mixing valid steps with individually skippable
elements (a non-mapping and a dotless service). -/
def exMixedItems : List Yaml :=
  [.map [("service", .str "switch.turn_off"), ("entity_id", .str "switch.open")],
   .int 5,
   .map [("service", .str "nodot")],
   .map [("service", .str "light.turn_on"), ("delay", .int 2)]]

/-- A state with an active movement: committed integer position `pos0`,
recorded start position `sp`, target `mt`, start timestamp `b`, expected
duration `d`. -/
def movementState (pos0 : ℤ) (sp mt b d : ℚ) : CoverState :=
  { position := pos0
    isOpening := true
    isClosing := false
    sensorUpActive := false
    sensorDownActive := false
    movementTaskActive := true
    movementStart := some b
    movementStartPosition := sp
    movementTarget := some mt
    movementExpectedDuration := some d
    lastDirectionOpening := some true }

/-- Helper: a successful `cancelMovement` leaves no movement recorded, no
task, and both motion flags cleared. -/
theorem cancelMovement_clears (u : Bool) (now : ℚ) (s s1 : CoverState)
    (h : cancelMovement u now s = some s1) :
    s1.movementStart = none ∧ s1.movementTarget = none ∧
    s1.movementExpectedDuration = none ∧ s1.movementTaskActive = false ∧
    s1.isOpening = false ∧ s1.isClosing = false := by
  unfold cancelMovement at h
  simp only [Option.map_eq_some'] at h
  obtain ⟨s2, h2, h3⟩ := h
  subst h3
  refine ⟨rfl, rfl, rfl, ?_, rfl, rfl⟩
  split at h2
  · obtain ⟨p, _, h4⟩ := Option.map_eq_some'.mp h2
    subst h4; rfl
  · obtain h4 := Option.some.inj h2
    subst h4; rfl

/-- C10: calling the public set-position command with no position argument
is a complete no-op: the state is returned unchanged and no external
action is issued. -/
theorem setPosition_none_is_noop (cfg : Config) (now : ℚ) (s : CoverState) :
    runCmd cfg now (.setPosition none) s = some (s, []) := rfl

/-- C8: when the resolved direction is unknown, or the sequence configured
for the resolved direction is empty, executing the stop sequence performs
exactly one external call: a switch turn-off targeting both the open and
the close switch in a single call. -/
theorem stopSequence_fallback_single_call (cfg : Config) (opening : Option Bool)
    (h : opening = none ∨ (opening = some true ∧ cfg.stopSequenceUp = []) ∨
      (opening = some false ∧ cfg.stopSequenceDown = [])) :
    executeStopSequence cfg opening =
      [.serviceCall "switch" "turn_off"
        [("entity_id", .list [.str cfg.openSwitch, .str cfg.closeSwitch])]] := by
  rcases h with rfl | ⟨rfl, h2⟩ | ⟨rfl, h2⟩
  · simp [executeStopSequence]
  · simp [executeStopSequence, h2]
  · simp [executeStopSequence, h2]

theorem stopSequence_fallback_single_call_witness :
    executeStopSequence exConfig (some true) =
      [.serviceCall "switch" "turn_off"
        [("entity_id", .list [.str "switch.open", .str "switch.close"])]] :=
  stopSequence_fallback_single_call exConfig (some true) (Or.inr (Or.inl ⟨rfl, rfl⟩))

/-- C7: set-position with a (clamped) target equal to the current committed
position behaves exactly as stop: same resulting state and same issued
actions; in particular no movement is recorded afterwards and the motion
flags end cleared. -/
theorem setPosition_current_equals_stop (cfg : Config) (now t : ℚ) (s : CoverState)
    (h : clampPosition t = s.position) :
    setCoverPosition cfg now (some t) s = stopCover cfg now s ∧
    (∀ s1 acts, setCoverPosition cfg now (some t) s = some (s1, acts) →
      s1.movementStart = none ∧ s1.movementTaskActive = false ∧
      s1.isOpening = false ∧ s1.isClosing = false) := by
  have heq : setCoverPosition cfg now (some t) s = stopCover cfg now s := by
    simp [setCoverPosition, h]
  refine ⟨heq, fun s1 acts h1 => ?_⟩
  rw [heq] at h1
  simp only [stopCover, Option.map_eq_some', Prod.mk.injEq] at h1
  obtain ⟨s2, hc, h3, -⟩ := h1
  obtain ⟨hms, -, -, hta, -, -⟩ := cancelMovement_clears true now s s2 hc
  subst h3
  simp [setMotion, hms, hta]

theorem setPosition_current_equals_stop_witness :
    clampPosition 40 = exIdleState.position ∧
    setCoverPosition exConfig 5 (some 40) exIdleState = stopCover exConfig 5 exIdleState :=
  ⟨by with_unfolding_all rfl,
   (setPosition_current_equals_stop exConfig 5 40 exIdleState (by with_unfolding_all rfl)).1⟩

/-- C4 counterexample: with the down sensor active, the up sensor inactive
and the opening flag set, the code resolves the stop direction as opening
(`some true`), not closing (`some false`) as the claim states: the active
sensor direction does not win over the motion flag. -/
theorem direction_resolution_counterexample :
    exSensorConflictState.sensorDownActive = true ∧
    exSensorConflictState.sensorUpActive = false ∧
    exSensorConflictState.isOpening = true ∧
    activeOrLastDirection exSensorConflictState = some true ∧
    activeOrLastDirection exSensorConflictState ≠ some false := by decide

/-- C4 amended: the stop direction is resolved by checking, in order, the
up sensor or the opening flag (giving opening), then the down sensor or
the closing flag (giving closing), then the last known movement direction,
else unknown; sensors and flags of the same side are peers, so an active
down sensor does not override a set opening flag. -/
theorem direction_resolution_order (s : CoverState) :
    activeOrLastDirection s = resolvedStopDirection s := by
  unfold activeOrLastDirection resolvedStopDirection
  rcases hu : s.sensorUpActive || s.isOpening <;>
    rcases hd : s.sensorDownActive || s.isClosing <;> simp [hu, hd]

/-- Helper: evaluation of the interpolation on a state with an active
movement of nonzero expected duration. -/
theorem interpolatedPosition_eval (pos0 : ℤ) (sp mt b d now : ℚ) (hne : d ≠ 0) :
    interpolatedPosition (movementState pos0 sp mt b d) now =
      some (sp + (mt - sp) * min 1 ((now - b) / d)) := by
  simp [interpolatedPosition, movementState, hne]

/-- C2 counterexample: progress is clamped only from above
(`min(1.0, elapsed / duration)`). For a query time before the movement
start (now = 0, start timestamp 10) the code yields -50 for a movement
from 0 toward 100 — overshooting below both endpoints — while the claimed
clamp(0, 1, ·) formula yields the start position 0. -/
theorem interpolation_lower_clamp_counterexample :
    interpolatedPosition (movementState 0 0 100 10 20) 0 = some (-50) ∧
    (0 : ℚ) + (100 - 0) * max 0 (min 1 ((0 - 10) / 20)) = 0 ∧
    (-50 : ℚ) < 0 ∧ (-50 : ℚ) < 100 ∧ (-50 : ℚ) ≠ 0 :=
  ⟨by with_unfolding_all rfl, by norm_num, by norm_num, by norm_num, by norm_num⟩

/-- C2 amended: the code computes
position = start + (target - start) * min(1, (now - start_ts)/duration),
the progress being clamped only from above. For every query time at or
after the start timestamp the result lies between the two endpoints,
equals the start position exactly at progress 0, equals the target
exactly once progress ≥ 1, and is monotonic in time. -/
theorem interpolation_behaviour (pos0 : ℤ) (sp mt b d n1 n2 n3 : ℚ)
    (hd : 0 < d) (h1 : b ≤ n1) (h12 : n1 ≤ n2) (h3 : b + d ≤ n3) :
    interpolatedPosition (movementState pos0 sp mt b d) n1 =
      some (sp + (mt - sp) * min 1 ((n1 - b) / d)) ∧
    min sp mt ≤ sp + (mt - sp) * min 1 ((n1 - b) / d) ∧
    sp + (mt - sp) * min 1 ((n1 - b) / d) ≤ max sp mt ∧
    interpolatedPosition (movementState pos0 sp mt b d) b = some sp ∧
    interpolatedPosition (movementState pos0 sp mt b d) n3 = some mt ∧
    (sp ≤ mt →
      sp + (mt - sp) * min 1 ((n1 - b) / d) ≤ sp + (mt - sp) * min 1 ((n2 - b) / d)) ∧
    (mt ≤ sp →
      sp + (mt - sp) * min 1 ((n2 - b) / d) ≤ sp + (mt - sp) * min 1 ((n1 - b) / d)) := by
  have hne : d ≠ 0 := ne_of_gt hd
  have hp0 : (0 : ℚ) ≤ min 1 ((n1 - b) / d) :=
    le_min (by norm_num) (div_nonneg (by linarith) hd.le)
  have hp1 : min 1 ((n1 - b) / d) ≤ 1 := min_le_left _ _
  have hmono : min 1 ((n1 - b) / d) ≤ min 1 ((n2 - b) / d) :=
    min_le_min le_rfl ((div_le_div_iff_of_pos_right hd).mpr (by linarith))
  refine ⟨interpolatedPosition_eval pos0 sp mt b d n1 hne, ?_, ?_, ?_, ?_, ?_, ?_⟩
  · rcases le_total sp mt with hcase | hcase
    · rw [min_eq_left hcase]; nlinarith
    · rw [min_eq_right hcase]; nlinarith
  · rcases le_total sp mt with hcase | hcase
    · rw [max_eq_right hcase]; nlinarith
    · rw [max_eq_left hcase]; nlinarith
  · rw [interpolatedPosition_eval pos0 sp mt b d b hne]
    have h0 : (b - b) / d = 0 := by simp
    rw [h0]
    norm_num
  · rw [interpolatedPosition_eval pos0 sp mt b d n3 hne]
    have hge : (1 : ℚ) ≤ (n3 - b) / d := (one_le_div hd).mpr (by linarith)
    rw [min_eq_left hge]
    norm_num
  · intro hc; nlinarith
  · intro hc; nlinarith

theorem interpolation_behaviour_witness :
    interpolatedPosition (movementState 0 0 100 0 20) 5 = some 25 ∧
    interpolatedPosition (movementState 0 0 100 0 20) 0 = some 0 ∧
    interpolatedPosition (movementState 0 0 100 0 20) 30 = some 100 := by
  obtain ⟨he, -, -, hb, h3, -, -⟩ :=
    interpolation_behaviour 0 0 100 0 20 5 10 30 (by norm_num) (by norm_num)
      (by norm_num) (by norm_num)
  refine ⟨?_, hb, h3⟩
  rw [he]
  norm_num [min_eq_right (by norm_num : ((5 : ℚ) - 0) / 20 ≤ 1)]

/-- C6 counterexample: for a movement with expected duration 0 the
interpolated-position computation is not guarded: the division fails
(uncaught ZeroDivisionError, modelled as `none`) instead of returning the
target position. -/
theorem interpolation_zero_duration_counterexample :
    interpolatedPosition (movementState 0 0 100 0 0) 5 = none ∧
    (none : Option ℚ) ≠ some 100 :=
  ⟨by with_unfolding_all rfl, by simp⟩

/-- C6 corrected: the interpolation is not guarded for nonpositive
durations. With expected duration 0 the computation fails (uncaught
ZeroDivisionError, modelled as `none`); with a negative duration it is
total but the progress is min(1, elapsed/duration), which for a query at
or after the start is ≤ 0 — the movement is not treated as immediately
complete. -/
theorem interpolation_nonpositive_duration (pos0 : ℤ) (sp mt b d now : ℚ) :
    (d = 0 → interpolatedPosition (movementState pos0 sp mt b d) now = none) ∧
    (d < 0 →
      interpolatedPosition (movementState pos0 sp mt b d) now =
        some (sp + (mt - sp) * min 1 ((now - b) / d)) ∧
      (b ≤ now → min 1 ((now - b) / d) ≤ 0)) := by
  constructor
  · intro h0
    subst h0
    simp [interpolatedPosition, movementState]
  · intro hneg
    refine ⟨interpolatedPosition_eval pos0 sp mt b d now (ne_of_lt hneg), fun hb => ?_⟩
    have hq : (now - b) / d ≤ 0 :=
      div_nonpos_of_nonneg_of_nonpos (by linarith) hneg.le
    exact le_trans (min_le_right _ _) hq

/-- Helper: the loop body of the parser classified by the spec-style
descriptions: it raises exactly on `specCrashes` elements and otherwise
keeps exactly the `specStep` ones. -/
theorem processStep_characterisation (y : Yaml) :
    processStep y =
      (if specCrashes y then .crash
       else
         match specStep y with
         | some st => .keep st
         | none => .skip) := by
  cases y with
  | null => rfl
  | bool b => rfl
  | int n => rfl
  | float q => rfl
  | str s => rfl
  | list xs => rfl
  | map fields =>
      unfold processStep specCrashes specStep
      cases hget : yamlGet fields "service" with
      | none => simp [hget, yamlTruthy]
      | some v =>
          cases v with
          | null => simp [hget, yamlTruthy]
          | bool bv => cases bv <;> simp [hget, yamlTruthy]
          | int n => by_cases hn : n = 0 <;> simp [hget, yamlTruthy, hn]
          | float q => by_cases hq : q = 0 <;> simp [hget, yamlTruthy, hq]
          | list xs =>
              cases xs with
              | nil => simp [hget, yamlTruthy]
              | cons a t =>
                  by_cases hx : (a :: t).any isDotString <;> simp [hget, yamlTruthy, hx]
          | map kvs =>
              cases kvs with
              | nil => simp [hget, yamlTruthy]
              | cons a t =>
                  by_cases hx : (a :: t).any (fun kv => kv.1 == ".") <;>
                    simp [hget, yamlTruthy, hx]
          | str sv =>
              by_cases hs : sv = ""
              · simp [hget, yamlTruthy, hs]
              · by_cases hc : sv.contains '.'
                · cases hsd : yamlGet fields "service_data" with
                  | none => simp [hget, yamlTruthy, hs, hc, stepDelayOf, hsd]
                  | some w =>
                      cases w with
                      | null => simp [hget, yamlTruthy, hs, hc, stepDelayOf, hsd]
                      | bool bv =>
                          cases bv <;> simp [hget, yamlTruthy, hs, hc, stepDelayOf, hsd]
                      | int n =>
                          by_cases hn : n = 0 <;>
                            simp [hget, yamlTruthy, hs, hc, stepDelayOf, hsd, hn]
                      | float q =>
                          by_cases hq : q = 0 <;>
                            simp [hget, yamlTruthy, hs, hc, stepDelayOf, hsd, hq]
                      | str s2 =>
                          by_cases hs2 : s2 = "" <;>
                            simp [hget, yamlTruthy, hs, hc, stepDelayOf, hsd, hs2]
                      | list xs =>
                          cases xs <;> simp [hget, yamlTruthy, hs, hc, stepDelayOf, hsd]
                      | map kvs =>
                          cases kvs <;> simp [hget, yamlTruthy, hs, hc, stepDelayOf, hsd]
                · simp [hget, yamlTruthy, hs, hc]

/-- C9 counterexample: one malformed step (service not of the
namespace.action form: the number 1) among two well-formed ones is not
skipped individually: the containment test raises (modelled `none`) and
invalidates the whole parse, instead of yielding the two well-formed
steps. -/
theorem malformed_step_crash_counterexample :
    parseStopSequence (.list exCrashItems) = none ∧
    (exCrashItems.filterMap specStep).length = 2 :=
  ⟨by with_unfolding_all rfl, by with_unfolding_all rfl⟩

/-- C9 amended: when the loaded input is a list, elements that are not
mappings, or whose service field is missing, falsy, or a string or
container without a dot, are skipped individually, and the output is
exactly the StopSteps of the remaining well-formed elements in their
original relative order — unless some element has a truthy non-string
service (a number, a boolean, or a container containing "."), in which
case the parse raises and yields no sequence at all. -/
theorem parse_skip_and_crash_behaviour (items : List Yaml) :
    (parseSteps items = none ↔ ∃ y ∈ items, specCrashes y = true) ∧
    ((∀ y ∈ items, specCrashes y = false) →
      parseSteps items = some (items.filterMap specStep)) := by
  induction items with
  | nil => simp [parseSteps]
  | cons y rest ih =>
      have hchar := processStep_characterisation y
      by_cases hcr : specCrashes y = true
      · have hps : parseSteps (y :: rest) = none := by
          simp [parseSteps, hchar, hcr]
        refine ⟨⟨fun _ => ⟨y, List.mem_cons_self y rest, hcr⟩, fun _ => hps⟩, ?_⟩
        intro hall
        exact absurd hcr (by simp [hall y (List.mem_cons_self y rest)])
      · have hcr' : specCrashes y = false := by
          simpa using hcr
        cases hstep : specStep y with
        | some st =>
            have hps : parseSteps (y :: rest) = (parseSteps rest).map (fun l => st :: l) := by
              simp [parseSteps, hchar, hcr', hstep]
            constructor
            · rw [hps]
              simp only [Option.map_eq_none']
              rw [ih.1]
              constructor
              · rintro ⟨z, hz, hc⟩
                exact ⟨z, List.mem_cons_of_mem y hz, hc⟩
              · rintro ⟨z, hz, hc⟩
                rcases List.mem_cons.mp hz with rfl | hz2
                · rw [hcr'] at hc; cases hc
                · exact ⟨z, hz2, hc⟩
            · intro hall
              rw [hps, ih.2 (fun z hz => hall z (List.mem_cons_of_mem y hz))]
              simp [List.filterMap_cons, hstep]
        | none =>
            have hps : parseSteps (y :: rest) = parseSteps rest := by
              simp [parseSteps, hchar, hcr', hstep]
            constructor
            · rw [hps, ih.1]
              constructor
              · rintro ⟨z, hz, hc⟩
                exact ⟨z, List.mem_cons_of_mem y hz, hc⟩
              · rintro ⟨z, hz, hc⟩
                rcases List.mem_cons.mp hz with rfl | hz2
                · rw [hcr'] at hc; cases hc
                · exact ⟨z, hz2, hc⟩
            · intro hall
              rw [hps, ih.2 (fun z hz => hall z (List.mem_cons_of_mem y hz))]
              simp [List.filterMap_cons, hstep]

theorem parse_skip_and_crash_behaviour_witness :
    parseSteps exMixedItems = some (exMixedItems.filterMap specStep) :=
  (parse_skip_and_crash_behaviour exMixedItems).2 (by decide)

/-- C5 counterexample: a step whose delay field holds -1 parses to a
StopStep whose delay is -1, which is negative: no non-negativity coercion
is applied. -/
theorem negative_delay_counterexample :
    (parseSteps exNegDelayItems).map (fun l => l.map StopStep.delay) = some [-1] ∧
    (-1 : ℚ) < 0 :=
  ⟨by with_unfolding_all rfl, by norm_num⟩

/-- Helper: a kept element is a mapping and its recorded delay is the
float coercion of the element's delay field. -/
theorem specStep_delay (y : Yaml) (st : StopStep) (h : specStep y = some st) :
    ∃ fields, y = Yaml.map fields ∧ st.delay = stepDelayOf fields := by
  cases y with
  | map fields =>
      refine ⟨fields, rfl, ?_⟩
      simp only [specStep] at h
      split at h
      · split at h
        · obtain h2 := Option.some.inj h
          subst h2
          rfl
        · cases h
      · cases h
  | null => cases h
  | bool b => cases h
  | int n => cases h
  | float q => cases h
  | str s => cases h
  | list xs => cases h

/-- C5 amended: every StopStep the parser produces records as its delay
the float coercion of its source element's delay field (absent → 0,
uncoercible → 0); no non-negativity coercion is applied, so configured
negative delays are preserved. -/
theorem parsed_delay_is_float_coercion (items : List Yaml) (steps : List StopStep)
    (h : parseSteps items = some steps) :
    ∀ st ∈ steps, ∃ fields, Yaml.map fields ∈ items ∧ st.delay = stepDelayOf fields := by
  induction items generalizing steps with
  | nil =>
      obtain rfl : ([] : List StopStep) = steps := Option.some.inj h
      intro st hst; cases hst
  | cons y rest ih =>
      rw [parseSteps, processStep_characterisation y] at h
      by_cases hcr : specCrashes y = true
      · rw [if_pos hcr] at h; cases h
      · rw [if_neg hcr] at h
        cases hstep : specStep y with
        | some st0 =>
            rw [hstep] at h
            simp only [Option.map_eq_some'] at h
            obtain ⟨l, hl, rfl⟩ := h
            intro st hst
            rcases List.mem_cons.mp hst with rfl | hst2
            · obtain ⟨fields, rfl, hd⟩ := specStep_delay y st hstep
              exact ⟨fields, List.mem_cons_self _ rest, hd⟩
            · obtain ⟨fields, hmem, hd⟩ := ih l hl st hst2
              exact ⟨fields, List.mem_cons_of_mem y hmem, hd⟩
        | none =>
            rw [hstep] at h
            intro st hst
            obtain ⟨fields, hmem, hd⟩ := ih steps h st hst
            exact ⟨fields, List.mem_cons_of_mem y hmem, hd⟩

theorem parsed_delay_is_float_coercion_witness :
    ∃ fields, Yaml.map fields ∈ exNegDelayItems ∧ exNegStep.delay = stepDelayOf fields :=
  parsed_delay_is_float_coercion exNegDelayItems [exNegStep]
    (by with_unfolding_all rfl) exNegStep (List.mem_singleton.mpr rfl)

theorem interpolation_nonpositive_duration_witness :
    interpolatedPosition (movementState 0 0 100 3 0) 7 = none ∧
    interpolatedPosition (movementState 0 5 50 0 (-2)) 3 =
      some (5 + (50 - 5) * min 1 ((3 - 0) / (-2))) ∧
    min 1 (((3 : ℚ) - 0) / (-2)) ≤ 0 :=
  ⟨(interpolation_nonpositive_duration 0 0 100 3 0 7).1 rfl,
   ((interpolation_nonpositive_duration 0 5 50 0 (-2) 3).2 (by norm_num)).1,
   ((interpolation_nonpositive_duration 0 5 50 0 (-2) 3).2 (by norm_num)).2 (by norm_num)⟩

/-- C1 counterexample: superseding the movement of `exMovingState` (from 0
toward 100 over 20s, started at time 0) at monotonic time 1/10 with a
position command toward 60: movement A's real-valued interpolated position
at supersession is 1/2, but movement B records start position 0 — the
clamp-rounded committed value — which here moreover coincides with A's
original start position. -/
theorem supersession_start_position_counterexample :
    interpolatedPosition exMovingState (1/10) = some (1/2) ∧
    (setCoverPosition exConfig (1/10) (some 60) exMovingState).map
        (fun r => r.1.movementStartPosition) = some 0 ∧
    (0 : ℚ) ≠ 1/2 ∧
    exMovingState.movementStartPosition = 0 :=
  ⟨by with_unfolding_all rfl, by with_unfolding_all rfl, by norm_num, rfl⟩

/-- C1 amended: starting a movement B while a movement A is active — via a
position command with a new target, or an activation of the configured up
sensor — cancels A with position update first, and afterwards exactly the
new movement B is recorded; B's recorded start position is the committed
integer position at supersession: the clamp-rounded value of A's
interpolated position at that moment (which can coincide with A's
original start position). -/
theorem supersession_records_rounded_position (cfg : Config) (now t b mt d : ℚ)
    (s : CoverState) (e : String)
    (hb : s.movementStart = some b) (hTgt : s.movementTarget = some mt)
    (hdur : s.movementExpectedDuration = some d) (hd0 : d ≠ 0)
    (hne : clampPosition t ≠ s.position) (hUp : cfg.movingUpSensor = some e) :
    ∃ iA, interpolatedPosition s now = some iA ∧
      (∃ s1 acts, setCoverPosition cfg now (some t) s = some (s1, acts) ∧
        s1.movementStart = some now ∧ s1.movementTaskActive = true ∧
        s1.movementStartPosition = ((clampPosition iA : ℤ) : ℚ)) ∧
      (∃ s2, handleMotionSensor cfg now e (some "on") s = some s2 ∧
        s2.movementStart = some now ∧ s2.movementTaskActive = true ∧
        s2.movementStartPosition = ((clampPosition iA : ℤ) : ℚ)) := by
  refine ⟨s.movementStartPosition + (mt - s.movementStartPosition) * min 1 ((now - b) / d),
    ?_, ?_, ?_⟩
  · simp [interpolatedPosition, hb, hTgt, hdur, hd0]
  · have hcancel : cancelMovement true now s =
        some (setMotion false false
          { s with movementTaskActive := false,
                   position := clampPosition (s.movementStartPosition +
                     (mt - s.movementStartPosition) * min 1 ((now - b) / d)),
                   movementStart := none, movementTarget := none,
                   movementExpectedDuration := none }) := by
      simp [cancelMovement, interpolatedPosition, hb, hTgt, hdur, hd0, setMotion]
    let sC : CoverState := setMotion false false
      { s with movementTaskActive := false,
               position := clampPosition (s.movementStartPosition +
                 (mt - s.movementStartPosition) * min 1 ((now - b) / d)),
               movementStart := none, movementTarget := none,
               movementExpectedDuration := none }
    refine ⟨startMovement (clampPosition t)
        (if decide (sC.position < clampPosition t) = true then cfg.openTime else cfg.closeTime)
        (decide (sC.position < clampPosition t)) now sC,
      [fireDirectionSwitch cfg (decide (sC.position < clampPosition t))], ?_, rfl, rfl, rfl⟩
    simp only [setCoverPosition]
    rw [if_neg hne, hcancel]
    rfl
  · have hknown : (!(some e == cfg.movingUpSensor) &&
        !(some e == cfg.movingDownSensor)) = false := by
      simp [hUp]
    have hopen : (some e == cfg.movingUpSensor) = true := by simp [hUp]
    have hcancel : cancelMovement true now { s with sensorUpActive := true } =
        some (setMotion false false
          { s with sensorUpActive := true, movementTaskActive := false,
                   position := clampPosition (s.movementStartPosition +
                     (mt - s.movementStartPosition) * min 1 ((now - b) / d)),
                   movementStart := none, movementTarget := none,
                   movementExpectedDuration := none }) := by
      simp [cancelMovement, interpolatedPosition, hb, hTgt, hdur, hd0, setMotion]
    let sC2 : CoverState := setMotion false false
      { s with sensorUpActive := true, movementTaskActive := false,
               position := clampPosition (s.movementStartPosition +
                 (mt - s.movementStartPosition) * min 1 ((now - b) / d)),
               movementStart := none, movementTarget := none,
               movementExpectedDuration := none }
    refine ⟨startMovement 100 cfg.openTime true now sC2, ?_, rfl, rfl, rfl⟩
    simp only [handleMotionSensor, hknown, hopen, Bool.false_eq_true, beq_self_eq_true,
      if_true, if_false, ite_false, ite_true]
    rw [hcancel]
    rfl

theorem supersession_records_rounded_position_witness :
    ∃ iA, interpolatedPosition exMovingState (1/4) = some iA ∧
      (∃ s1 acts, setCoverPosition exConfig (1/4) (some 60) exMovingState = some (s1, acts) ∧
        s1.movementStart = some (1/4) ∧ s1.movementTaskActive = true ∧
        s1.movementStartPosition = ((clampPosition iA : ℤ) : ℚ)) ∧
      (∃ s2, handleMotionSensor exConfig (1/4) "binary_sensor.up" (some "on") exMovingState =
          some s2 ∧
        s2.movementStart = some (1/4) ∧ s2.movementTaskActive = true ∧
        s2.movementStartPosition = ((clampPosition iA : ℤ) : ℚ)) :=
  supersession_records_rounded_position exConfig (1/4) 60 0 100 20 exMovingState
    "binary_sensor.up" rfl rfl rfl (by norm_num) (by with_unfolding_all decide) rfl

/-- Helper: `clampPosition` always lands in [0, 100]. -/
theorem clampPosition_bounds (v : ℚ) : 0 ≤ clampPosition v ∧ clampPosition v ≤ 100 :=
  ⟨le_max_left 0 _, max_le (by norm_num) (min_le_left 100 _)⟩

/-- Helper: a successful `cancelMovement` leaves the committed position
unchanged or writes a clamped value. -/
theorem cancelMovement_position (u : Bool) (now : ℚ) (s s1 : CoverState)
    (h : cancelMovement u now s = some s1) :
    s1.position = s.position ∨ ∃ p, s1.position = clampPosition p := by
  unfold cancelMovement at h
  simp only [Option.map_eq_some'] at h
  obtain ⟨s2, h2, h3⟩ := h
  subst h3
  split at h2
  · obtain ⟨p, -, h4⟩ := Option.map_eq_some'.mp h2
    subst h4
    exact Or.inr ⟨p, rfl⟩
  · obtain h4 := Option.some.inj h2
    subst h4
    exact Or.inl rfl

/-- Helper: stop leaves the committed position unchanged or clamped. -/
theorem stopCover_position (cfg : Config) (now : ℚ) (s s1 : CoverState)
    (acts : List Action) (h : stopCover cfg now s = some (s1, acts)) :
    s1.position = s.position ∨ ∃ p, s1.position = clampPosition p := by
  simp only [stopCover, Option.map_eq_some', Prod.mk.injEq] at h
  obtain ⟨s2, hc, h3, -⟩ := h
  subst h3
  exact cancelMovement_position true now s s2 hc

/-- Helper: set-position leaves the committed position unchanged or
clamped. -/
theorem setCoverPosition_position (cfg : Config) (now : ℚ) (t? : Option ℚ)
    (s s1 : CoverState) (acts : List Action)
    (h : setCoverPosition cfg now t? s = some (s1, acts)) :
    s1.position = s.position ∨ ∃ p, s1.position = clampPosition p := by
  cases t? with
  | none =>
      simp only [setCoverPosition, Option.some.injEq, Prod.mk.injEq] at h
      obtain ⟨h1, -⟩ := h
      exact Or.inl (by rw [← h1])
  | some raw =>
      simp only [setCoverPosition] at h
      split at h
      · exact stopCover_position cfg now s s1 acts h
      · simp only [Option.map_eq_some', Prod.mk.injEq] at h
        obtain ⟨s2, hc, h3, -⟩ := h
        subst h3
        exact cancelMovement_position true now s s2 hc

/-- Helper: sensor-event handling leaves the committed position unchanged
or clamped. -/
theorem handleMotionSensor_position (cfg : Config) (now : ℚ) (e : String)
    (ns : Option String) (s s1 : CoverState)
    (h : handleMotionSensor cfg now e ns s = some s1) :
    s1.position = s.position ∨ ∃ p, s1.position = clampPosition p := by
  simp only [handleMotionSensor] at h
  split at h
  · exact Or.inl (by rw [← Option.some.inj h])
  · split at h <;> try split at h
    all_goals try split at h
    all_goals
      first
      | (simp only [Option.map_eq_some'] at h
         obtain ⟨s2, hc, h3⟩ := h
         subst h3
         exact (cancelMovement_position true now _ s2 hc).imp (fun heq => heq.trans rfl) id)
      | exact (cancelMovement_position true now _ s1 h).imp (fun heq => heq.trans rfl) id
      | exact Or.inl (by rw [← Option.some.inj h])

/-- Helper: a movement tick writes a clamped value. -/
theorem movementTick_position (now : ℚ) (s s1 : CoverState)
    (h : movementTick now s = some s1) : ∃ p, s1.position = clampPosition p := by
  simp only [movementTick, Option.map_eq_some'] at h
  obtain ⟨p, -, h2⟩ := h
  subst h2
  exact ⟨p, rfl⟩

/-- Helper: natural completion writes the clamped target. -/
theorem movementComplete_position (s s1 : CoverState)
    (h : movementComplete s = some s1) : ∃ p, s1.position = clampPosition p := by
  unfold movementComplete at h
  split at h
  · rename_i mt heq
    obtain h2 := Option.some.inj h
    subst h2
    refine ⟨mt, ?_⟩
    split <;> rfl
  · cases h

/-- Helper: restore leaves the committed position unchanged or clamped. -/
theorem restoreState_position (pos? : Option ℚ) (s : CoverState) :
    (restoreState pos? s).position = s.position ∨
      ∃ p, (restoreState pos? s).position = clampPosition p := by
  cases pos? with
  | none => exact Or.inl rfl
  | some p => exact Or.inr ⟨p, rfl⟩

/-- Helper: any operation leaves the committed position unchanged or
writes a clamped value. -/
theorem runCmd_position (cfg : Config) (now : ℚ) (c : Cmd) (s s1 : CoverState)
    (acts : List Action) (h : runCmd cfg now c s = some (s1, acts)) :
    s1.position = s.position ∨ ∃ p, s1.position = clampPosition p := by
  cases c with
  | openCover => exact setCoverPosition_position cfg now (some 100) s s1 acts h
  | closeCover => exact setCoverPosition_position cfg now (some 0) s s1 acts h
  | setPosition t? => exact setCoverPosition_position cfg now t? s s1 acts h
  | setShade =>
      exact setCoverPosition_position cfg now (some ((cfg.shadePosition : ℚ))) s s1 acts h
  | stopCmd => exact stopCover_position cfg now s s1 acts h
  | tick tnow =>
      simp only [runCmd, Option.map_eq_some', Prod.mk.injEq] at h
      obtain ⟨s2, hf, h3, -⟩ := h
      subst h3
      exact Or.inr (movementTick_position tnow s s2 hf)
  | complete =>
      simp only [runCmd, Option.map_eq_some', Prod.mk.injEq] at h
      obtain ⟨s2, hf, h3, -⟩ := h
      subst h3
      exact Or.inr (movementComplete_position s s2 hf)
  | sensorEvent e ns =>
      simp only [runCmd, Option.map_eq_some', Prod.mk.injEq] at h
      obtain ⟨s2, hf, h3, -⟩ := h
      subst h3
      exact handleMotionSensor_position cfg now e ns s s2 hf
  | restore pos? =>
      simp only [runCmd, Option.some.injEq, Prod.mk.injEq] at h
      obtain ⟨h1, -⟩ := h
      rw [← h1]
      exact restoreState_position pos? s

/-- C3: every write to the committed position goes through the clamp:
`clampPosition` always lands in [0, 100], and every operation of the
entity (any command, any tick of the movement loop, natural completion,
any sensor event, state restore) keeps the committed position an integer
in [0, 100]. -/
theorem committed_position_in_range :
    (∀ v : ℚ, 0 ≤ clampPosition v ∧ clampPosition v ≤ 100) ∧
    (∀ cfg now c (s s1 : CoverState) acts, 0 ≤ s.position → s.position ≤ 100 →
      runCmd cfg now c s = some (s1, acts) → 0 ≤ s1.position ∧ s1.position ≤ 100) := by
  refine ⟨clampPosition_bounds, fun cfg now c s s1 acts h0 h100 h => ?_⟩
  rcases runCmd_position cfg now c s s1 acts h with heq | ⟨p, hp⟩
  · rw [heq]; exact ⟨h0, h100⟩
  · rw [hp]; exact clampPosition_bounds p

theorem committed_position_in_range_witness :
    runCmd exConfig 1 (.tick 1) exMovingState = some (exTickedState, []) ∧
    (0 ≤ exMovingState.position ∧ exMovingState.position ≤ 100) ∧
    (0 ≤ exTickedState.position ∧ exTickedState.position ≤ 100) :=
  ⟨by with_unfolding_all rfl,
   ⟨by norm_num [exMovingState], by norm_num [exMovingState]⟩,
   committed_position_in_range.2 exConfig 1 (.tick 1) exMovingState exTickedState []
     (by norm_num [exMovingState]) (by norm_num [exMovingState])
     (by with_unfolding_all rfl)⟩

end LogoShutters
